import Mathlib

/-!
Verification development for the resume-personalization pipeline
(`app/` package): a shallow embedding of the schema layer
(`app/schemas/*.py`), the post-LLM validator (`app/utils/validation.py`),
the routing gate (`app/graph/gate.py`), the mapping validation
(`app/graph/nodes/mapping.py`), the merge stage
(`app/graph/nodes/format.py`), the report and feedback nodes
(`app/graph/nodes/report.py`, `app/graph/nodes/feedback.py`), the
sectional enhancement node (`app/graph/nodes/enhance_sectional.py`) and
the streaming enhancement generators
(`app/graph/nodes/enhance_streaming.py`).

Python `datetime` values are modelled as abstract `Nat` timestamps (the
code only compares them for equality); optional fields become `Option`;
LLM calls become explicit oracles describing the outcome of each call or
of each streamed chunk, so that the deterministic orchestration logic
around them can be proved about.  Functions that can raise return
`Except String`.
-/

set_option autoImplicit false

namespace ResumeApp

/-! ## Schemas (`app/schemas/*.py`) -/

/-- Model of `schemas/personal_info.py` `PersonalInfo`. -/
structure PersonalInfo where
  full_name : String
  phone_number : String
  email_address : String
  linkedin : Option String
  personal_website : Option String
deriving DecidableEq, Repr

/-- Model of `schemas/experience.py` `Experience`; `datetime` modelled as `Nat`. -/
structure Experience where
  role_title : String
  company_name : String
  start_date : Nat
  end_date : Option Nat
  description : List String
  is_volunteer : Bool
deriving DecidableEq, Repr

/-- Model of `schemas/education.py` `Education`. -/
structure Education where
  degree : String
  major : String
  university_name : String
  city : String
  country : String
  start_date : Nat
  end_date : Option Nat
deriving DecidableEq, Repr

/-- Model of `enums/resume_enums.py` skill type. -/
inductive SkillType where
  | technical
  | soft
deriving DecidableEq, Repr

/-- Model of `schemas/skill.py` `Skill`. -/
structure Skill where
  skill_name : String
  skill_type : SkillType
deriving DecidableEq, Repr

/-- Model of `schemas/certification.py` `Certification`. -/
structure Certification where
  certification_name : String
  issuing_organization : String
  issue_date : Option Nat
deriving DecidableEq, Repr

/-- Model of `enums/resume_enums.py` language proficiency level. -/
inductive LanguageProficiencyLevel where
  | A1
  | A2
  | B1
  | B2
  | C1
  | C2
  | native
deriving DecidableEq, Repr

/-- Model of `schemas/language.py` `Language`. -/
structure Language where
  language : String
  proficiency_level : LanguageProficiencyLevel
deriving DecidableEq, Repr

/-- Model of `schemas/project.py` `Project`. -/
structure Project where
  project_name : String
  description : List String
  project_link : Option String
deriving DecidableEq, Repr

/-- Model of `schemas/resume.py` `Resume`.  In the pydantic model `experiences`,
`certifications` and `projects` are `Optional[List[...]]`, hence
`Option (List _)` here; the other list fields are plain lists. -/
structure Resume where
  personal_info : PersonalInfo
  summary : String
  educations : List Education
  experiences : Option (List Experience)
  skills : List Skill
  certifications : Option (List Certification)
  languages : List Language
  projects : Option (List Project)
deriving DecidableEq, Repr

/-- Model of `schemas/enhancement.py` `ChangeReason`. -/
structure ChangeReason where
  field_or_location : String
  reason : String
deriving DecidableEq, Repr

/-- Model of `schemas/enhancement.py` `SummaryEnhancementOutput`. -/
structure SummaryEnhancementOutput where
  enhanced : String
  reasons : List ChangeReason := []
deriving DecidableEq, Repr

/-- Model of `schemas/enhancement.py` `ExperiencesEnhancementOutput`. -/
structure ExperiencesEnhancementOutput where
  enhanced : List Experience := []
  reasons : List ChangeReason := []
deriving DecidableEq, Repr

/-- Model of `schemas/enhancement.py` `EducationsEnhancementOutput`. -/
structure EducationsEnhancementOutput where
  enhanced : List Education := []
  reasons : List ChangeReason := []
deriving DecidableEq, Repr

/-- Model of `schemas/enhancement.py` `SkillsEnhancementOutput`. -/
structure SkillsEnhancementOutput where
  enhanced : List Skill := []
  reasons : List ChangeReason := []
deriving DecidableEq, Repr

/-- Model of `schemas/enhancement.py` `CertificationsEnhancementOutput`. -/
structure CertificationsEnhancementOutput where
  enhanced : List Certification := []
  reasons : List ChangeReason := []
deriving DecidableEq, Repr

/-- Model of `schemas/enhancement.py` `LanguagesEnhancementOutput`. -/
structure LanguagesEnhancementOutput where
  enhanced : List Language := []
  reasons : List ChangeReason := []
deriving DecidableEq, Repr

/-- Model of `schemas/enhancement.py` `ProjectsEnhancementOutput`. -/
structure ProjectsEnhancementOutput where
  enhanced : List Project := []
  reasons : List ChangeReason := []
deriving DecidableEq, Repr

/-- Model of `schemas/enhancement.py` `FullEnhancementOutput`: one optional
per-section enhancement output for each of the 7 section kinds. -/
structure FullEnhancementOutput where
  summary : Option SummaryEnhancementOutput := none
  experiences : Option ExperiencesEnhancementOutput := none
  educations : Option EducationsEnhancementOutput := none
  skills : Option SkillsEnhancementOutput := none
  certifications : Option CertificationsEnhancementOutput := none
  languages : Option LanguagesEnhancementOutput := none
  projects : Option ProjectsEnhancementOutput := none
deriving DecidableEq, Repr

/-- Model of `schemas/mapping_result.py` `MappingResult`.  The list fields are
modelled as `Option` because `_validate_and_normalize_mapping_result`
defends against `None` values coming back from the structured-output
call; `match_score` is a Python `int`, modelled as `Int`. -/
structure MappingResult where
  matched_skills : Option (List String) := some []
  matched_requirements : Option (List String) := some []
  gaps : Option (List String) := some []
  match_score : Int
deriving DecidableEq, Repr

/-! ## Routing gate (`app/graph/gate.py`) -/

/-- Model of `graph/gate.py` `route_after_mapping`: the global settings lookup
`get_settings().SCORE_THRESHOLD` is passed as the `threshold` argument;
a missing `mapping_result` raises `ValueError`. -/
def route_after_mapping (mapping_result : Option MappingResult)
    (threshold : Int) : Except String String :=
  match mapping_result with
  | none => .error "route_after_mapping requires state.mapping_result"
  | some mr =>
      if mr.match_score < threshold then .ok "feedback" else .ok "enhance"

/-! ## Mapping validation (`app/graph/nodes/mapping.py`) -/

/-- Model of `graph/nodes/mapping.py` `_validate_and_normalize_mapping_result`:
reject a `match_score` outside `[1, 10]`, replace `None` list fields by
empty lists, and rebuild the result. -/
def _validate_and_normalize_mapping_result (result : MappingResult) :
    Except String MappingResult :=
  if 1 ≤ result.match_score ∧ result.match_score ≤ 10 then
    let matched_skills :=
      match result.matched_skills with
      | some l => l
      | none => []
    let matched_requirements :=
      match result.matched_requirements with
      | some l => l
      | none => []
    let gaps :=
      match result.gaps with
      | some l => l
      | none => []
    .ok { matched_skills := some matched_skills,
          matched_requirements := some matched_requirements,
          gaps := some gaps,
          match_score := result.match_score }
  else
    .error ("mapping_node: match_score must be between 1 and 10, got "
      ++ toString result.match_score)

/-! ## Post-LLM validation (`app/utils/validation.py`) -/

/-- Body of the loop of `utils/validation.py` `validate_experiences` for
one index: each protected field that differs from the original is
reverted to the original value. -/
def fixExperience (exp orig : Experience) : Experience :=
  let exp := if exp.start_date ≠ orig.start_date then
    { exp with start_date := orig.start_date } else exp
  let exp := if exp.end_date ≠ orig.end_date then
    { exp with end_date := orig.end_date } else exp
  let exp := if exp.company_name ≠ orig.company_name then
    { exp with company_name := orig.company_name } else exp
  if exp.role_title ≠ orig.role_title then
    { exp with role_title := orig.role_title } else exp

/-- Model of `utils/validation.py` `validate_experiences`: positional walk over
the enhanced list; the loop breaks once the original list is exhausted,
leaving the remaining enhanced entries untouched. -/
def validate_experiences : List Experience → List Experience → List Experience
  | [], _ => []
  | es, [] => es
  | e :: es, o :: os => fixExperience e o :: validate_experiences es os

/-- Body of the loop of `utils/validation.py` `validate_educations` for
one index. -/
def fixEducation (edu orig : Education) : Education :=
  let edu := if edu.start_date ≠ orig.start_date then
    { edu with start_date := orig.start_date } else edu
  let edu := if edu.end_date ≠ orig.end_date then
    { edu with end_date := orig.end_date } else edu
  let edu := if edu.university_name ≠ orig.university_name then
    { edu with university_name := orig.university_name } else edu
  if edu.degree ≠ orig.degree then
    { edu with degree := orig.degree } else edu

/-- Model of `utils/validation.py` `validate_educations`. -/
def validate_educations : List Education → List Education → List Education
  | [], _ => []
  | es, [] => es
  | e :: es, o :: os => fixEducation e o :: validate_educations es os

/-- Python `str.startswith(("http://", "https://"))`. -/
def startsWithUrlScheme (s : String) : Bool :=
  s.startsWith "http://" || s.startsWith "https://"

/-- Body of the loop of `utils/validation.py` `validate_projects` for
one index: revert `project_name` when it is a URL; revert `project_link`
when it is present (truthy, so non-empty) but not a URL. -/
def fixProject (proj orig : Project) : Project :=
  let proj := if startsWithUrlScheme proj.project_name then
    { proj with project_name := orig.project_name } else proj
  match proj.project_link with
  | some l =>
      if l ≠ "" ∧ ¬ startsWithUrlScheme l then
        { proj with project_link := orig.project_link }
      else proj
  | none => proj

/-- Model of `utils/validation.py` `validate_projects`. -/
def validate_projects : List Project → List Project → List Project
  | [], _ => []
  | es, [] => es
  | e :: es, o :: os => fixProject e o :: validate_projects es os

/-! ## Merge stage (`app/graph/nodes/format.py`) -/

/-- The `experiences` branch of `format.py` `_build_enhanced_resume`:
when an enhanced experiences output is present it is validated against
`resume.experiences`; since that field is `Optional`, a `None` original
combined with a non-empty enhanced list makes `len(original)` raise a
`TypeError` inside `validate_experiences` (with an empty enhanced list
the loop body never runs, so nothing is raised). -/
def mergedExperiences (resume : Resume) (fo : FullEnhancementOutput) :
    Except String (Option (List Experience)) :=
  match fo.experiences with
  | some e =>
      match resume.experiences with
      | some orig => .ok (some (validate_experiences e.enhanced orig))
      | none =>
          if e.enhanced.isEmpty then .ok (some e.enhanced)
          else .error "TypeError: object of type NoneType has no len"
  | none => .ok resume.experiences

/-- The `projects` branch of `format.py` `_build_enhanced_resume`;
same `Optional`-original caveat as `mergedExperiences`. -/
def mergedProjects (resume : Resume) (fo : FullEnhancementOutput) :
    Except String (Option (List Project)) :=
  match fo.projects with
  | some p =>
      match resume.projects with
      | some orig => .ok (some (validate_projects p.enhanced orig))
      | none =>
          if p.enhanced.isEmpty then .ok (some p.enhanced)
          else .error "TypeError: object of type NoneType has no len"
  | none => .ok resume.projects

/-- Model of `format.py` `_build_enhanced_resume`: merge the original resume
with the enhanced sections.  `personal_info` is kept as-is; `summary`
and each list section are replaced only if an enhanced version is
present, otherwise the original values are preserved; experiences,
educations and projects are validated.  A new `Resume` value is
constructed (the embedding is purely functional, so the original
resume value is never modified). -/
def _build_enhanced_resume (resume : Resume) (fo : FullEnhancementOutput) :
    Except String Resume :=
  let summary :=
    match fo.summary with
    | some s => s.enhanced
    | none => resume.summary
  let educations :=
    match fo.educations with
    | some e => validate_educations e.enhanced resume.educations
    | none => resume.educations
  let skills :=
    match fo.skills with
    | some s => s.enhanced
    | none => resume.skills
  let certifications :=
    match fo.certifications with
    | some c => some c.enhanced
    | none => resume.certifications
  let languages :=
    match fo.languages with
    | some l => l.enhanced
    | none => resume.languages
  match mergedExperiences resume fo with
  | .error e => .error e
  | .ok experiences =>
      match mergedProjects resume fo with
      | .error e => .error e
      | .ok projects =>
          .ok { personal_info := resume.personal_info,
                summary := summary,
                educations := educations,
                experiences := experiences,
                skills := skills,
                certifications := certifications,
                languages := languages,
                projects := projects }

/-! ## Report and feedback nodes
(`app/graph/nodes/report.py`, `app/graph/nodes/feedback.py`) -/

/-- The `.content` attribute of a LangChain chat-model response: either
a string or some non-string value. -/
inductive LLMContent where
  | str (s : String)
  | nonStr
deriving DecidableEq, Repr

/-- Python `str.strip()`: drop whitespace from both ends (modelled on
the character list so it is kernel-computable). -/
def pyStrip (s : String) : String :=
  ⟨(((s.data.dropWhile Char.isWhitespace).reverse.dropWhile
      Char.isWhitespace).reverse)⟩

/-- Model of `report.py` `_collect_reasons`: concatenate the `reasons` of every
populated section, in section order. -/
def _collect_reasons (fo : FullEnhancementOutput) : List ChangeReason :=
  let reasons : List ChangeReason := []
  let reasons := reasons ++
    (match fo.summary with | some s => s.reasons | none => [])
  let reasons := reasons ++
    (match fo.experiences with | some s => s.reasons | none => [])
  let reasons := reasons ++
    (match fo.educations with | some s => s.reasons | none => [])
  let reasons := reasons ++
    (match fo.skills with | some s => s.reasons | none => [])
  let reasons := reasons ++
    (match fo.certifications with | some s => s.reasons | none => [])
  let reasons := reasons ++
    (match fo.languages with | some s => s.reasons | none => [])
  reasons ++ (match fo.projects with | some s => s.reasons | none => [])

/-- Model of `report.py` `report_node`: a missing `full_enhancement_output`
raises; when there are change reasons the gateway is called once
(`gateway` is the outcome of that call) inside a `try`/`except` that
logs and swallows any exception; empty or non-string content is also
absorbed, leaving `report_summary = None`. -/
def report_node (full_enhancement_output : Option FullEnhancementOutput)
    (gateway : Except String LLMContent) : Except String (Option String) :=
  match full_enhancement_output with
  | none => .error "report_node requires state.full_enhancement_output"
  | some fo =>
      let reasons := _collect_reasons fo
      if reasons.isEmpty then .ok none
      else
        match gateway with
        | .error _ => .ok none
        | .ok .nonStr => .ok none
        | .ok (.str s) =>
            if pyStrip s = "" then .ok none else .ok (some (pyStrip s))

/-- Model of `feedback.py` `feedback_node`: a missing `mapping_result` raises;
a gateway exception is logged and re-raised; a non-string or blank
`content` raises `ValueError`; otherwise the (unstripped) message text
is returned as `feedback_message`. -/
def feedback_node (mapping_result : Option MappingResult)
    (gateway : Except String LLMContent) : Except String String :=
  match mapping_result with
  | none => .error "feedback_node requires state.mapping_result"
  | some _ =>
      match gateway with
      | .error e => .error e
      | .ok .nonStr =>
          .error "feedback_node: LLM must return non-empty text content"
      | .ok (.str s) =>
          if pyStrip s = "" then
            .error "feedback_node: LLM must return non-empty text content"
          else .ok s

/-! ## Sectional enhancement node (`app/graph/nodes/enhance_sectional.py`) -/

/-- Model of `enhance_sectional.py` `SECTIONAL_MAX_RETRIES`. -/
def SECTIONAL_MAX_RETRIES : Nat := 2

/-- Outcome of one structured-output LLM call for a section of type `α`:
`.ok` is a well-typed section output, `.error` is any raised exception
(transient failure, timeout, or a wrong-typed result, whose message is
the recorded string). -/
abbrev AttemptOutcome (α : Type) := Except String α

/-- Oracle for one run of `enhance_sectional_node`: the outcome of each
per-section LLM attempt, in attempt order, plus the wall-clock elapsed
milliseconds recorded for each section. -/
structure SectionalOracle where
  summary : List (AttemptOutcome SummaryEnhancementOutput)
  experiences : List (AttemptOutcome ExperiencesEnhancementOutput)
  educations : List (AttemptOutcome EducationsEnhancementOutput)
  skills : List (AttemptOutcome SkillsEnhancementOutput)
  certifications : List (AttemptOutcome CertificationsEnhancementOutput)
  languages : List (AttemptOutcome LanguagesEnhancementOutput)
  projects : List (AttemptOutcome ProjectsEnhancementOutput)
  elapsed_ms : String → Nat

/-- The `for attempt in range(SECTIONAL_MAX_RETRIES)` loop of
`_enhance_single_section`, threading `last_error` exactly as the code
does: return on the first success, otherwise keep the error message of
the most recent failed attempt. -/
def runSectionAttempts {α : Type} (last_error : Option String) :
    List (AttemptOutcome α) → Option α × Option String
  | [] => (none, last_error)
  | .ok r :: _ => (some r, none)
  | .error e :: rest => runSectionAttempts (some e) rest

/-- Model of `enhance_sectional.py` `_enhance_single_section`: at most
`SECTIONAL_MAX_RETRIES` attempts, returning `(result, None)` on success
and `(None, last_error)` on exhaustion. -/
def _enhance_single_section {α : Type} (attempts : List (AttemptOutcome α)) :
    Option α × Option String :=
  runSectionAttempts none (attempts.take SECTIONAL_MAX_RETRIES)

/-- The error-map contribution of one section of
`enhance_sectional_node`: an entry `section → (error or "Unknown
error")` exactly when the section produced no result (Python `or`
treats an empty error string as falsy, hence the extra test). -/
def sectionErrEntry {α : Type} (name : String)
    (r : Option α × Option String) : List (String × String) :=
  match r.1 with
  | some _ => []
  | none =>
      match r.2 with
      | some e => [(name, if e = "" then "Unknown error" else e)]
      | none => [(name, "Unknown error")]

/-- The `sections_succeeded` contribution of one section. -/
def sectionSucceeded {α : Type} (name : String)
    (r : Option α × Option String) : List String :=
  match r.1 with
  | some _ => [name]
  | none => []

/-- The `sections_failed` contribution of one section. -/
def sectionFailed {α : Type} (name : String)
    (r : Option α × Option String) : List String :=
  match r.1 with
  | some _ => []
  | none => [name]

/-- The state fields written by `enhance_sectional_node`. -/
structure SectionalResult where
  full_enhancement_output : FullEnhancementOutput
  section_errors : List (String × String)
  section_timings : List (String × Nat)
  sections_succeeded : List String
  sections_failed : List String
deriving Repr

/-- Model of `enhance_sectional.py` `enhance_sectional_node`: process the 7
sections of `SECTIONAL_SECTIONS` in order; every section records a
timing; a successful section stores its output on
`full_enhancement_output`, a failed one records an error-map entry and
leaves the output field `None` (the merge stage later substitutes the
original).  Sections are independent, so the sequential loop is
rendered as one `_enhance_single_section` call per section. -/
def enhance_sectional_node (o : SectionalOracle) : SectionalResult :=
  let rSummary := _enhance_single_section o.summary
  let rExperiences := _enhance_single_section o.experiences
  let rEducations := _enhance_single_section o.educations
  let rSkills := _enhance_single_section o.skills
  let rCertifications := _enhance_single_section o.certifications
  let rLanguages := _enhance_single_section o.languages
  let rProjects := _enhance_single_section o.projects
  { full_enhancement_output :=
      { summary := rSummary.1,
        experiences := rExperiences.1,
        educations := rEducations.1,
        skills := rSkills.1,
        certifications := rCertifications.1,
        languages := rLanguages.1,
        projects := rProjects.1 },
    section_errors :=
      sectionErrEntry "summary" rSummary ++
      sectionErrEntry "experiences" rExperiences ++
      sectionErrEntry "educations" rEducations ++
      sectionErrEntry "skills" rSkills ++
      sectionErrEntry "certifications" rCertifications ++
      sectionErrEntry "languages" rLanguages ++
      sectionErrEntry "projects" rProjects,
    section_timings :=
      [("summary", o.elapsed_ms "summary"),
       ("experiences", o.elapsed_ms "experiences"),
       ("educations", o.elapsed_ms "educations"),
       ("skills", o.elapsed_ms "skills"),
       ("certifications", o.elapsed_ms "certifications"),
       ("languages", o.elapsed_ms "languages"),
       ("projects", o.elapsed_ms "projects")],
    sections_succeeded :=
      sectionSucceeded "summary" rSummary ++
      sectionSucceeded "experiences" rExperiences ++
      sectionSucceeded "educations" rEducations ++
      sectionSucceeded "skills" rSkills ++
      sectionSucceeded "certifications" rCertifications ++
      sectionSucceeded "languages" rLanguages ++
      sectionSucceeded "projects" rProjects,
    sections_failed :=
      sectionFailed "summary" rSummary ++
      sectionFailed "experiences" rExperiences ++
      sectionFailed "educations" rEducations ++
      sectionFailed "skills" rSkills ++
      sectionFailed "certifications" rCertifications ++
      sectionFailed "languages" rLanguages ++
      sectionFailed "projects" rProjects }

/-! ## Streaming enhancement (`app/graph/nodes/enhance_streaming.py`)

The wall clock (`time.time()`) and the token stream (`llm.astream`) are
ambient nondeterminism; they are modelled by scripts: each streamed
chunk carries its text together with the clock value (in milliseconds)
observed right after it is appended, and each attempt carries the clock
value at which it starts and how it ends (a parsed payload, a JSON
parse failure, or an exception raised mid-stream after the listed
chunks). -/

/-- Model of `enhance_streaming.py` `DELTA_INTERVAL_MS`. -/
def DELTA_INTERVAL_MS : Nat := 250

/-- Model of `enhance_streaming.py` `MIN_CHUNK_SIZE`. -/
def MIN_CHUNK_SIZE : Nat := 10

/-- Model of `enhance_streaming.py` `MAX_RETRIES`. -/
def MAX_RETRIES : Nat := 2

/-- One streamed chunk: its text and the clock (ms) observed at the
delta-emission check that follows it. -/
structure StreamChunk where
  text : String
  now : Nat
deriving DecidableEq, Repr

/-- How one streaming attempt ends: `parsed payload` when
`_parse_section_json` succeeds on the accumulated text (`payload` is
the dumped section output carried by the `section_complete` event),
`parseFail` when it returns `None`, `exn msg` when an exception is
raised during streaming (after the scripted chunks were consumed). -/
inductive StreamAttemptEnd where
  | parsed (payload : String)
  | parseFail
  | exn (msg : String)
deriving DecidableEq, Repr

/-- Script of one attempt of `stream_section_enhancement`. -/
structure AttemptScript where
  startTime : Nat
  chunks : List StreamChunk
  ending : StreamAttemptEnd
deriving DecidableEq, Repr

/-- Event kinds emitted by `stream_section_enhancement`
(`_create_streaming_event` event_type values). -/
inductive StreamEventType where
  | section_start
  | section_delta
  | section_complete
  | error_event
deriving DecidableEq, Repr

/-- A streaming event, with the fields the ordering claims are about
(`section` is a Lean keyword, hence `sectionName`). -/
structure StreamEvent where
  event_type : StreamEventType
  sectionName : String
  section_index : Nat
  delta_text : Option String := none
  accumulated_text : Option String := none
  payload : Option String := none
  error_message : Option String := none
deriving DecidableEq, Repr

/-- Mutable loop state of the `async for chunk` loop of
`stream_section_enhancement`. -/
structure DeltaState where
  accumulated : String
  lastDeltaTime : Nat
  lastSentLength : Nat
deriving DecidableEq, Repr

/-- One iteration of the `async for chunk in llm.astream(...)` loop:
append the chunk text, then emit a `section_delta` event when at least
`DELTA_INTERVAL_MS` elapsed since the last delta and at least
`MIN_CHUNK_SIZE` new characters accumulated. -/
def processChunk (name : String) (idx : Nat) (s : DeltaState)
    (c : StreamChunk) : DeltaState × List StreamEvent :=
  let accumulated := s.accumulated ++ c.text
  let time_since_last := c.now - s.lastDeltaTime
  let new_chars := accumulated.length - s.lastSentLength
  if DELTA_INTERVAL_MS ≤ time_since_last ∧ MIN_CHUNK_SIZE ≤ new_chars then
    ({ accumulated := accumulated,
       lastDeltaTime := c.now,
       lastSentLength := accumulated.length },
     [{ event_type := .section_delta,
        sectionName := name,
        section_index := idx,
        delta_text := some (accumulated.drop s.lastSentLength),
        accumulated_text := some accumulated }])
  else
    ({ s with accumulated := accumulated }, [])

/-- The whole chunk loop of one attempt. -/
def runChunks (name : String) (idx : Nat) :
    DeltaState → List StreamChunk → DeltaState × List StreamEvent
  | s, [] => (s, [])
  | s, c :: cs =>
      let (s1, evs) := processChunk name idx s c
      let (s2, evs2) := runChunks name idx s1 cs
      (s2, evs ++ evs2)

/-- Initial loop state of one attempt: `accumulated_text = ""`,
`last_delta_time = time.time()`, `last_sent_length = 0`. -/
def attemptInitState (a : AttemptScript) : DeltaState :=
  { accumulated := "", lastDeltaTime := a.startTime, lastSentLength := 0 }

/-- The `for attempt in range(MAX_RETRIES)` loop of
`stream_section_enhancement`: each attempt replays its chunk loop
(emitting deltas), then either breaks with a parsed result, or records
`last_error` and retries.  Returns the emitted delta events, the final
`result` and the final `last_error`. -/
def runStreamAttempts (name : String) (idx : Nat) :
    List AttemptScript → Option String →
    List StreamEvent × Option String × Option String
  | [], last_error => ([], none, last_error)
  | a :: rest, last_error =>
      let (_, evs) := runChunks name idx (attemptInitState a) a.chunks
      match a.ending with
      | .parsed payload => (evs, some payload, last_error)
      | .parseFail =>
          let e := "Failed to parse LLM response as valid JSON for " ++ name
          let (evs2, r, le) := runStreamAttempts name idx rest (some e)
          (evs ++ evs2, r, le)
      | .exn m =>
          let (evs2, r, le) := runStreamAttempts name idx rest (some m)
          (evs ++ evs2, r, le)

/-- Model of `enhance_streaming.py` `stream_section_enhancement`: emit
`section_start`, run the bounded retry loop emitting `section_delta`
events, then emit exactly one of `section_complete` (with the parsed
payload) or `error` (with `last_error or "Unknown error"`). -/
def stream_section_enhancement (name : String) (idx : Nat)
    (attempts : List AttemptScript) : List StreamEvent :=
  let startEv : StreamEvent :=
    { event_type := .section_start, sectionName := name, section_index := idx }
  let (deltaEvs, result, last_error) :=
    runStreamAttempts name idx (attempts.take MAX_RETRIES) none
  match result with
  | some payload =>
      startEv :: deltaEvs ++
        [{ event_type := .section_complete,
           sectionName := name,
           section_index := idx,
           payload := some payload }]
  | none =>
      startEv :: deltaEvs ++
        [{ event_type := .error_event,
           sectionName := name,
           section_index := idx,
           error_message := some (match last_error with
             | some e => if e = "" then "Unknown error" else e
             | none => "Unknown error") }]

/-- The section names of `enhance_streaming.py` `STREAMING_SECTIONS`,
in order. -/
def STREAMING_SECTION_NAMES : List String :=
  ["summary", "experiences", "educations", "skills",
   "certifications", "languages", "projects"]

/-- Model of `enhance_streaming.py` `stream_all_sections`: stream the 7 sections
sequentially, in `STREAMING_SECTIONS` order, forwarding every event
(`scripts i` is the attempt script of section index `i`).  The final
`_internal_results` state-passing marker the generator yields to its
caller is not an observer-visible section event and is modelled by the
elided accumulated output, not by a `StreamEvent`. -/
def stream_all_sections (scripts : Nat → List AttemptScript) :
    List StreamEvent :=
  (STREAMING_SECTION_NAMES.enum.map
    (fun p => stream_section_enhancement p.2 p.1 (scripts p.1))).flatten

/-- Events of one section, as an observer would extract them from the
full event sequence of a pass. -/
def sectionEvents (name : String) (evs : List StreamEvent) : List StreamEvent :=
  evs.filter (fun e => e.sectionName == name)

/-- The accumulated texts carried by the delta events of a sequence. -/
def accumTexts (evs : List StreamEvent) : List String :=
  evs.filterMap (fun e => e.accumulated_text)

/-- Relation saying `b` strictly extends `a`: the ordering in which accumulated texts
grow during streaming. -/
def StrictExtend (a b : String) : Prop :=
  a.length < b.length ∧ ∃ s2, b = a ++ s2

/-! ## Theorems -/

/-- C3: for every integer score `S` and threshold `T`, the routing gate
returns `"feedback"` iff `S < T` and `"enhance"` otherwise; at the
boundary `S = T` it routes to `"enhance"`. -/
theorem routing_gate_thresholding (mr : MappingResult) (T : Int) :
    (route_after_mapping (some mr) T = .ok "feedback" ↔ mr.match_score < T) ∧
    (route_after_mapping (some mr) T = .ok "enhance" ↔ T ≤ mr.match_score) ∧
    route_after_mapping (some { mr with match_score := T }) T = .ok "enhance" := by
  refine ⟨?_, ?_, ?_⟩ <;> simp [route_after_mapping]

/-- C4: the mapping stage errors exactly when `match_score` lies
outside `[1, 10]` (never clamping or defaulting), and on success
returns the same `match_score` with every null list field replaced by
an empty list. -/
theorem mapping_score_validation (r : MappingResult) :
    ((∃ r2, _validate_and_normalize_mapping_result r = .ok r2) ↔
      1 ≤ r.match_score ∧ r.match_score ≤ 10) ∧
    (∀ r2, _validate_and_normalize_mapping_result r = .ok r2 →
      r2.match_score = r.match_score ∧
      r2.matched_skills = some (r.matched_skills.getD []) ∧
      r2.matched_requirements = some (r.matched_requirements.getD []) ∧
      r2.gaps = some (r.gaps.getD [])) := by
  unfold _validate_and_normalize_mapping_result
  by_cases h : 1 ≤ r.match_score ∧ r.match_score ≤ 10
  · simp only [if_pos h]
    refine ⟨⟨fun _ => h, fun _ => ⟨_, rfl⟩⟩, ?_⟩
    rintro r2 hr2
    cases hr2
    refine ⟨rfl, ?_, ?_, ?_⟩
    · cases hm : r.matched_skills <;> simp [hm]
    · cases hm : r.matched_requirements <;> simp [hm]
    · cases hm : r.gaps <;> simp [hm]
  · simp [if_neg h, h]

/-- A concrete raw mapping result: in-range score, null
`matched_requirements` and `gaps`. -/
def mr0 : MappingResult :=
  { matched_skills := some ["python"], matched_requirements := none,
    gaps := none, match_score := 7 }

/-- C4 witness: `mr0` is accepted, keeps its score, and has its null
`gaps` normalized to an empty list. -/
theorem mapping_score_validation_witness :
    (1 ≤ (7 : Int) ∧ (7 : Int) ≤ 10) ∧
    ∃ r2, _validate_and_normalize_mapping_result mr0 = .ok r2 ∧
      r2.match_score = 7 ∧ r2.gaps = some [] := by
  refine ⟨by decide, ?_⟩
  obtain ⟨r2, hr2⟩ := (mapping_score_validation mr0).1.mpr (by decide)
  have h3 := (mapping_score_validation mr0).2 r2 hr2
  exact ⟨r2, hr2, by simp [mr0, h3.1], by simp [mr0, h3.2.2.2]⟩

/-- After the per-index fix, all four protected experience fields agree
with the original entry, whatever the raw entry contained. -/
theorem fixExperience_protected (e o : Experience) :
    (fixExperience e o).start_date = o.start_date ∧
    (fixExperience e o).end_date = o.end_date ∧
    (fixExperience e o).company_name = o.company_name ∧
    (fixExperience e o).role_title = o.role_title := by
  simp only [fixExperience]
  split_ifs <;> simp_all

/-- After the per-index fix, all four protected education fields agree
with the original entry. -/
theorem fixEducation_protected (e o : Education) :
    (fixEducation e o).start_date = o.start_date ∧
    (fixEducation e o).end_date = o.end_date ∧
    (fixEducation e o).university_name = o.university_name ∧
    (fixEducation e o).degree = o.degree := by
  simp only [fixEducation]
  split_ifs <;> simp_all

/-- Indexed specification of `validate_experiences`. -/
theorem validate_experiences_getElem (enhanced original : List Experience)
    (i : Nat) (v o : Experience)
    (h1 : (validate_experiences enhanced original)[i]? = some v)
    (h2 : original[i]? = some o) :
    v.start_date = o.start_date ∧ v.end_date = o.end_date ∧
    v.company_name = o.company_name ∧ v.role_title = o.role_title := by
  induction enhanced generalizing original i with
  | nil => simp [validate_experiences] at h1
  | cons e es ih =>
      cases original with
      | nil => simp at h2
      | cons o2 os =>
          cases i with
          | zero =>
              simp only [validate_experiences, List.getElem?_cons_zero,
                Option.some.injEq] at h1 h2
              subst h1; subst h2
              exact fixExperience_protected e o2
          | succ n =>
              simp only [validate_experiences, List.getElem?_cons_succ] at h1 h2
              exact ih os n h1 h2

/-- Indexed specification of `validate_educations`. -/
theorem validate_educations_getElem (enhanced original : List Education)
    (i : Nat) (v o : Education)
    (h1 : (validate_educations enhanced original)[i]? = some v)
    (h2 : original[i]? = some o) :
    v.start_date = o.start_date ∧ v.end_date = o.end_date ∧
    v.university_name = o.university_name ∧ v.degree = o.degree := by
  induction enhanced generalizing original i with
  | nil => simp [validate_educations] at h1
  | cons e es ih =>
      cases original with
      | nil => simp at h2
      | cons o2 os =>
          cases i with
          | zero =>
              simp only [validate_educations, List.getElem?_cons_zero,
                Option.some.injEq] at h1 h2
              subst h1; subst h2
              exact fixEducation_protected e o2
          | succ n =>
              simp only [validate_educations, List.getElem?_cons_succ] at h1 h2
              exact ih os n h1 h2

/-- C2: for every index present in both lists, after validation the
enhanced experience entry agrees with the original on `start_date`,
`end_date`, `company_name`, `role_title`, and the enhanced education
entry agrees on `start_date`, `end_date`, `university_name`, `degree`
— regardless of what the raw model output contained. -/
theorem validators_preserve_protected_fields :
    (∀ (enhanced original : List Experience) (i : Nat) (v o : Experience),
      (validate_experiences enhanced original)[i]? = some v →
      original[i]? = some o →
      v.start_date = o.start_date ∧ v.end_date = o.end_date ∧
      v.company_name = o.company_name ∧ v.role_title = o.role_title) ∧
    (∀ (enhanced original : List Education) (i : Nat) (v o : Education),
      (validate_educations enhanced original)[i]? = some v →
      original[i]? = some o →
      v.start_date = o.start_date ∧ v.end_date = o.end_date ∧
      v.university_name = o.university_name ∧ v.degree = o.degree) :=
  ⟨validate_experiences_getElem, validate_educations_getElem⟩

/-- A raw enhanced experience entry whose protected fields all differ
from the original below. -/
def expRaw : Experience :=
  { role_title := "Senior Engineer", company_name := "MegaCorp",
    start_date := 5, end_date := none,
    description := ["led a team"], is_volunteer := false }

/-- The original experience entry. -/
def expOrig : Experience :=
  { role_title := "Engineer", company_name := "Acme",
    start_date := 3, end_date := some 9,
    description := ["wrote code"], is_volunteer := false }

/-- A raw enhanced education entry with corrupted protected fields. -/
def eduRaw : Education :=
  { degree := "PhD", major := "CS", university_name := "Fake U",
    city := "X", country := "Y", start_date := 1, end_date := none }

/-- The original education entry. -/
def eduOrig : Education :=
  { degree := "BSc", major := "CS", university_name := "State U",
    city := "X", country := "Y", start_date := 2, end_date := some 6 }

/-- C2 witness: validating concrete corrupted entries restores every
protected field at index 0. -/
theorem validators_preserve_protected_fields_witness :
    ((validate_experiences [expRaw] [expOrig])[0]?.all
        (fun v => v.start_date == expOrig.start_date &&
          v.company_name == expOrig.company_name) = true) ∧
    ((validate_educations [eduRaw] [eduOrig])[0]?.all
        (fun v => v.start_date == eduOrig.start_date &&
          v.degree == eduOrig.degree) = true) := by
  have h1 := validators_preserve_protected_fields.1 [expRaw] [expOrig] 0
    (fixExperience expRaw expOrig) expOrig rfl rfl
  have h2 := validators_preserve_protected_fields.2 [eduRaw] [eduOrig] 0
    (fixEducation eduRaw eduOrig) eduOrig rfl rfl
  constructor
  · simp [validate_experiences, h1.1, h1.2.2.1]
  · simp [validate_educations, h2.1, h2.2.2.2]

/-- C6: merging any resume with an empty `FullEnhancementOutput`
(every one of the 7 sections `None`) returns a resume structurally
equal to the original. -/
theorem merge_empty_enhancement_identity (resume : Resume) :
    _build_enhanced_resume resume
      ⟨none, none, none, none, none, none, none⟩ = .ok resume := by
  cases resume
  rfl

/-- C7: whenever the merge stage produces a resume, its
`personal_info` is identical to the input resume's `personal_info`.
The embedding is purely functional, so the input resume value is never
mutated by computing the merge. -/
theorem merge_preserves_personal_info (resume : Resume)
    (fo : FullEnhancementOutput) (r : Resume)
    (h : _build_enhanced_resume resume fo = .ok r) :
    r.personal_info = resume.personal_info := by
  unfold _build_enhanced_resume at h
  cases he : mergedExperiences resume fo with
  | error e => rw [he] at h; cases h
  | ok exps =>
      rw [he] at h
      cases hp : mergedProjects resume fo with
      | error e => rw [hp] at h; cases h
      | ok projs =>
          rw [hp] at h
          cases h
          rfl

/-- Concrete personal info for witnesses. -/
def pi0 : PersonalInfo :=
  { full_name := "Jane Roe", phone_number := "555-0100",
    email_address := "jane@example.com", linkedin := none,
    personal_website := none }

/-- Concrete resume for witnesses. -/
def resume0 : Resume :=
  { personal_info := pi0, summary := "builder of systems",
    educations := [eduOrig], experiences := some [expOrig],
    skills := [{ skill_name := "python", skill_type := .technical }],
    certifications := none,
    languages := [{ language := "English", proficiency_level := .C1 }],
    projects := none }

/-- A summary enhancement output with one change reason. -/
def summaryOut0 : SummaryEnhancementOutput :=
  { enhanced := "seasoned builder of systems",
    reasons := [{ field_or_location := "summary",
                  reason := "tightened wording" }] }

/-- Enhancement output touching only the summary. -/
def foSummaryOnly : FullEnhancementOutput :=
  { summary := some summaryOut0 }

/-- Copy of `resume0` with only its summary rewritten. -/
def resume0Enhanced : Resume :=
  { resume0 with summary := "seasoned builder of systems" }

/-- C7 witness: merging `resume0` with a summary-only enhancement
yields a resume with the original personal info. -/
theorem merge_preserves_personal_info_witness :
    resume0Enhanced.personal_info = resume0.personal_info :=
  merge_preserves_personal_info resume0 foSummaryOnly resume0Enhanced
    (by rfl)

/-- C8, counterexample to the claim as stated: with at least one change
reason present (so the report stage really calls the gateway), a
gateway failure does NOT propagate out of `report_node`: the node
returns normally with `report_summary = None`. -/
theorem report_gateway_failure_cex :
    ((_collect_reasons foSummaryOnly).isEmpty = false) ∧
    report_node (some foSummaryOnly) (.error "connection error") =
      .ok none := by
  exact ⟨by decide, by rfl⟩

/-- C8, amended: if the gateway call made by the report stage fails,
the failure is not retried (the node makes a single call) and is
absorbed locally by the report stage, which returns
`report_summary = None` instead of propagating an error. -/
theorem report_gateway_failure_absorbed (fo : FullEnhancementOutput)
    (msg : String) :
    report_node (some fo) (.error msg) = .ok none := by
  by_cases h : (_collect_reasons fo).isEmpty <;> simp [report_node, h]

/-- C9: the feedback stage either returns non-empty text or fails:
non-string content and empty or whitespace-only content raise a hard
error, and any accepted response is non-empty. -/
theorem feedback_nonempty_or_error (mr : MappingResult) (s : String) :
    ((∃ t, feedback_node (some mr) (.ok (.str s)) = .ok t) ↔
      pyStrip s ≠ "") ∧
    (∀ t, feedback_node (some mr) (.ok (.str s)) = .ok t →
      t = s ∧ pyStrip t ≠ "" ∧ t ≠ "") ∧
    feedback_node (some mr) (.ok .nonStr) =
      .error "feedback_node: LLM must return non-empty text content" := by
  refine ⟨?_, ?_, rfl⟩
  · by_cases h : pyStrip s = "" <;> simp [feedback_node, h]
  · intro t ht
    by_cases h : pyStrip s = "" <;> simp [feedback_node, h] at ht
    subst ht
    refine ⟨rfl, h, ?_⟩
    intro hs
    subst hs
    exact h (by decide)

/-- C9 witness: a concrete non-blank response is returned unchanged and
non-empty. -/
theorem feedback_nonempty_or_error_witness :
    " well done " = " well done " ∧
    pyStrip " well done " ≠ "" ∧ (" well done " : String) ≠ "" :=
  (feedback_nonempty_or_error mr0 " well done ").2.1 " well done "
    (by rfl)

/-- The keys of a section's error-map contribution: an entry for `name`
is present exactly when the section produced no result. -/
theorem mem_fst_sectionErrEntry {α : Type} (m name : String)
    (r : Option α × Option String) :
    m ∈ (sectionErrEntry name r).map Prod.fst ↔ m = name ∧ r.1 = none := by
  rcases r with ⟨r1, r2⟩
  cases r1 <;> cases r2 <;> simp [sectionErrEntry]

/-- C10: after `enhance_sectional_node`, for each of the 7 section
names exactly one of the following holds: the returned
`FullEnhancementOutput` carries a non-`None` output for that section,
or `section_errors` contains an entry for it; and `section_timings`
has an entry for every one of the 7 sections regardless of outcome. -/
theorem sectional_section_invariant (o : SectionalOracle) :
    ((enhance_sectional_node o).full_enhancement_output.summary.isSome ↔
      "summary" ∉ (enhance_sectional_node o).section_errors.map Prod.fst) ∧
    ((enhance_sectional_node o).full_enhancement_output.experiences.isSome ↔
      "experiences" ∉ (enhance_sectional_node o).section_errors.map Prod.fst) ∧
    ((enhance_sectional_node o).full_enhancement_output.educations.isSome ↔
      "educations" ∉ (enhance_sectional_node o).section_errors.map Prod.fst) ∧
    ((enhance_sectional_node o).full_enhancement_output.skills.isSome ↔
      "skills" ∉ (enhance_sectional_node o).section_errors.map Prod.fst) ∧
    ((enhance_sectional_node o).full_enhancement_output.certifications.isSome ↔
      "certifications" ∉ (enhance_sectional_node o).section_errors.map Prod.fst) ∧
    ((enhance_sectional_node o).full_enhancement_output.languages.isSome ↔
      "languages" ∉ (enhance_sectional_node o).section_errors.map Prod.fst) ∧
    ((enhance_sectional_node o).full_enhancement_output.projects.isSome ↔
      "projects" ∉ (enhance_sectional_node o).section_errors.map Prod.fst) ∧
    (enhance_sectional_node o).section_timings.map Prod.fst =
      ["summary", "experiences", "educations", "skills",
       "certifications", "languages", "projects"] := by
  simp only [enhance_sectional_node, List.map_append, List.mem_append,
    mem_fst_sectionErrEntry]
  refine ⟨?_, ?_, ?_, ?_, ?_, ?_, ?_, by simp⟩ <;>
    simp <;> cases (_enhance_single_section _ : Option _ × Option String).1 <;>
      simp

/-- C1: in sectional mode, if exactly one section (skills) exhausts its
retry budget while every other section succeeds, the merged resume
keeps the original skills list unchanged, carries the enhanced content
of every other section, and `section_errors` holds exactly one entry
mapping "skills" to the last attempt's error message.  The validation
hypotheses say the successful outputs respect the protected-field
invariants, so validation passes them through unchanged. -/
theorem sectional_partial_failure
    (o : SectionalOracle) (resume : Resume)
    (so : SummaryEnhancementOutput) (eo : ExperiencesEnhancementOutput)
    (edo : EducationsEnhancementOutput)
    (co : CertificationsEnhancementOutput) (lo : LanguagesEnhancementOutput)
    (po : ProjectsEnhancementOutput) (m1 m2 : String) (hm2 : m2 ≠ "")
    (origE : List Experience) (origP : List Project)
    (hS : o.summary = [.ok so]) (hE : o.experiences = [.ok eo])
    (hEd : o.educations = [.ok edo])
    (hSk : o.skills = [.error m1, .error m2])
    (hC : o.certifications = [.ok co]) (hL : o.languages = [.ok lo])
    (hP : o.projects = [.ok po])
    (hRE : resume.experiences = some origE)
    (hRP : resume.projects = some origP)
    (hVE : validate_experiences eo.enhanced origE = eo.enhanced)
    (hVEd : validate_educations edo.enhanced resume.educations = edo.enhanced)
    (hVP : validate_projects po.enhanced origP = po.enhanced) :
    (enhance_sectional_node o).section_errors = [("skills", m2)] ∧
    ∃ merged, _build_enhanced_resume resume
        (enhance_sectional_node o).full_enhancement_output = .ok merged ∧
      merged.skills = resume.skills ∧
      merged.personal_info = resume.personal_info ∧
      merged.summary = so.enhanced ∧
      merged.experiences = some eo.enhanced ∧
      merged.educations = edo.enhanced ∧
      merged.certifications = some co.enhanced ∧
      merged.languages = lo.enhanced ∧
      merged.projects = some po.enhanced := by
  have hfo : (enhance_sectional_node o).full_enhancement_output =
      { summary := some so, experiences := some eo, educations := some edo,
        skills := none, certifications := some co, languages := some lo,
        projects := some po } := by
    simp [enhance_sectional_node, hS, hE, hEd, hSk, hC, hL, hP,
      _enhance_single_section, runSectionAttempts, SECTIONAL_MAX_RETRIES]
  constructor
  · simp [enhance_sectional_node, hS, hE, hEd, hSk, hC, hL, hP,
      _enhance_single_section, runSectionAttempts, SECTIONAL_MAX_RETRIES,
      sectionErrEntry, hm2]
  · rw [hfo]
    have hmerge : _build_enhanced_resume resume
        { summary := some so, experiences := some eo, educations := some edo,
          skills := none, certifications := some co, languages := some lo,
          projects := some po } =
        .ok { personal_info := resume.personal_info,
              summary := so.enhanced,
              educations := edo.enhanced,
              experiences := some eo.enhanced,
              skills := resume.skills,
              certifications := some co.enhanced,
              languages := lo.enhanced,
              projects := some po.enhanced } := by
      simp [_build_enhanced_resume, mergedExperiences, mergedProjects,
        hRE, hRP, hVE, hVEd, hVP]
    exact ⟨_, hmerge, rfl, rfl, rfl, rfl, rfl, rfl, rfl, rfl⟩

/-- Copy of `resume0` with an (empty) projects list present. -/
def resume1 : Resume := { resume0 with projects := some [] }

/-- Concrete sectional oracle: every section succeeds on its first
attempt except skills, which fails both attempts. -/
def o1 : SectionalOracle :=
  { summary := [.ok { enhanced := "tighter summary" }],
    experiences := [.ok {}],
    educations := [.ok {}],
    skills := [.error "timeout", .error "rate limited"],
    certifications := [.ok {}],
    languages := [.ok {}],
    projects := [.ok {}],
    elapsed_ms := fun _ => 0 }

/-- C1 witness: the partial-failure property at the concrete run `o1`
on `resume1`. -/
theorem sectional_partial_failure_witness :
    (enhance_sectional_node o1).section_errors =
      [("skills", "rate limited")] ∧
    ∃ merged, _build_enhanced_resume resume1
        (enhance_sectional_node o1).full_enhancement_output = .ok merged ∧
      merged.skills = resume1.skills ∧
      merged.personal_info = resume1.personal_info ∧
      merged.summary = "tighter summary" ∧
      merged.experiences = some [] ∧
      merged.educations = [] ∧
      merged.certifications = some [] ∧
      merged.languages = [] ∧
      merged.projects = some [] :=
  sectional_partial_failure o1 resume1
    { enhanced := "tighter summary" } {} {} {} {} {}
    "timeout" "rate limited" (by decide) [expOrig] []
    rfl rfl rfl rfl rfl rfl rfl rfl rfl rfl rfl rfl

/-- Every event emitted by the chunk loop is a `section_delta` for the
section being streamed, and carries an accumulated text. -/
theorem mem_runChunks (n : String) (i : Nat) (cs : List StreamChunk) :
    ∀ (s : DeltaState) (e : StreamEvent),
      e ∈ (runChunks n i s cs).2 →
      e.event_type = .section_delta ∧ e.sectionName = n ∧
      e.section_index = i ∧ ∃ a, e.accumulated_text = some a := by
  induction cs with
  | nil =>
      intro s e h
      simp [runChunks] at h
  | cons c cs ih =>
      intro s e h
      rw [runChunks] at h
      by_cases hc : DELTA_INTERVAL_MS ≤ c.now - s.lastDeltaTime ∧
          MIN_CHUNK_SIZE ≤ (s.accumulated ++ c.text).length - s.lastSentLength
      · simp only [processChunk, if_pos hc, List.cons_append, List.nil_append,
          List.mem_cons] at h
        rcases h with h | h
        · subst h
          exact ⟨rfl, rfl, rfl, _, rfl⟩
        · exact ih _ e h
      · simp only [processChunk, if_neg hc, List.nil_append] at h
        exact ih _ e h

/-- Every event emitted by the retry loop is a `section_delta` for the
section being streamed. -/
theorem mem_runStreamAttempts (n : String) (i : Nat) :
    ∀ (attempts : List AttemptScript) (le : Option String) (e : StreamEvent),
      e ∈ (runStreamAttempts n i attempts le).1 →
      e.event_type = .section_delta ∧ e.sectionName = n ∧
      e.section_index = i ∧ ∃ a, e.accumulated_text = some a := by
  intro attempts
  induction attempts with
  | nil =>
      intro le e h
      simp [runStreamAttempts] at h
  | cons a rest ih =>
      intro le e h
      rw [runStreamAttempts] at h
      rcases hend : a.ending with payload | _ | m <;> rw [hend] at h
      · exact mem_runChunks n i a.chunks _ e h
      · simp only [List.mem_append] at h
        rcases h with h | h
        · exact mem_runChunks n i a.chunks _ e h
        · exact ih _ e h
      · simp only [List.mem_append] at h
        rcases h with h | h
        · exact mem_runChunks n i a.chunks _ e h
        · exact ih _ e h

/-- Shape of one section's event sequence: `section_start`, then delta
events, then exactly one of `section_complete` or `error`. -/
theorem stream_section_shape (n : String) (i : Nat)
    (attempts : List AttemptScript) :
    ∃ d t, stream_section_enhancement n i attempts =
      { event_type := .section_start, sectionName := n,
        section_index := i } :: (d ++ [t]) ∧
      (∀ e ∈ d, e.event_type = .section_delta ∧ e.sectionName = n ∧
        e.section_index = i ∧ ∃ a, e.accumulated_text = some a) ∧
      (t.event_type = .section_complete ∨ t.event_type = .error_event) ∧
      t.sectionName = n ∧ t.section_index = i := by
  rcases h : runStreamAttempts n i (attempts.take MAX_RETRIES) none
    with ⟨evs, r, le⟩
  have hmem : ∀ e ∈ evs, e.event_type = .section_delta ∧
      e.sectionName = n ∧ e.section_index = i ∧
      ∃ a, e.accumulated_text = some a := by
    intro e he
    exact mem_runStreamAttempts n i (attempts.take MAX_RETRIES) none e
      (by rw [h]; exact he)
  cases r with
  | some payload =>
      refine ⟨evs,
        { event_type := .section_complete, sectionName := n,
          section_index := i, payload := some payload },
        ?_, hmem, Or.inl rfl, rfl, rfl⟩
      simp [stream_section_enhancement, h]
  | none =>
      cases le with
      | none =>
          refine ⟨evs,
            { event_type := .error_event, sectionName := n,
              section_index := i, error_message := some "Unknown error" },
            ?_, hmem, Or.inr rfl, rfl, rfl⟩
          simp [stream_section_enhancement, h]
      | some msg =>
          refine ⟨evs,
            { event_type := .error_event, sectionName := n,
              section_index := i,
              error_message :=
                some (if msg = "" then "Unknown error" else msg) },
            ?_, hmem, Or.inr rfl, rfl, rfl⟩
          simp [stream_section_enhancement, h]

/-- Every event of one section's stream carries that section's name and
index. -/
theorem mem_stream_section (n : String) (i : Nat)
    (attempts : List AttemptScript) (e : StreamEvent)
    (h : e ∈ stream_section_enhancement n i attempts) :
    e.sectionName = n ∧ e.section_index = i := by
  obtain ⟨d, t, hsh, hd, _, htn, hti⟩ := stream_section_shape n i attempts
  rw [hsh] at h
  rcases List.mem_cons.mp h with h | h
  · subst h; exact ⟨rfl, rfl⟩
  · rcases List.mem_append.mp h with h | h
    · exact ⟨(hd e h).2.1, (hd e h).2.2.1⟩
    · rcases List.mem_singleton.mp h with rfl
      exact ⟨htn, hti⟩

/-- The `section_start` event is in its section's stream. -/
theorem start_mem_stream_section (n : String) (i : Nat)
    (attempts : List AttemptScript) :
    ({ event_type := .section_start, sectionName := n,
       section_index := i } : StreamEvent) ∈
      stream_section_enhancement n i attempts := by
  obtain ⟨d, t, hsh, _⟩ := stream_section_shape n i attempts
  rw [hsh]
  exact List.mem_cons_self _ _

/-- Filtering a section's stream by its own name keeps everything. -/
theorem filter_stream_section_self (n : String) (i : Nat)
    (attempts : List AttemptScript) :
    (stream_section_enhancement n i attempts).filter
      (fun e => e.sectionName == n) =
      stream_section_enhancement n i attempts := by
  rw [List.filter_eq_self]
  intro e he
  simp [(mem_stream_section n i attempts e he).1]

/-- Filtering a section's stream by another section's name drops
everything. -/
theorem filter_stream_section_ne (n m : String) (i : Nat)
    (attempts : List AttemptScript) (hnm : n ≠ m) :
    (stream_section_enhancement n i attempts).filter
      (fun e => e.sectionName == m) = [] := by
  rw [List.filter_eq_nil_iff]
  intro e he
  simp [(mem_stream_section n i attempts e he).1, hnm]

/-- A list whose events all carry the same section index is pairwise
non-decreasing on indices. -/
theorem pairwise_const_le (l : List StreamEvent) (k : Nat)
    (h : ∀ e ∈ l, e.section_index = k) :
    l.Pairwise (fun a b => a.section_index ≤ b.section_index) := by
  induction l with
  | nil => exact List.Pairwise.nil
  | cons x xs ih =>
      refine List.Pairwise.cons ?_
        (ih fun e he => h e (List.mem_cons_of_mem _ he))
      intro y hy
      rw [h x (List.mem_cons_self _ _), h y (List.mem_cons_of_mem _ hy)]

/-- Every event of a full streaming pass belongs to one of the
enumerated sections and carries its name and index. -/
theorem mem_stream_all_sections (scripts : Nat → List AttemptScript)
    (e : StreamEvent) (h : e ∈ stream_all_sections scripts) :
    ∃ p, p ∈ STREAMING_SECTION_NAMES.enum ∧
      e.sectionName = p.2 ∧ e.section_index = p.1 := by
  rw [stream_all_sections] at h
  obtain ⟨l, hl, hel⟩ := List.mem_flatten.mp h
  obtain ⟨p, hp, rfl⟩ := List.mem_map.mp hl
  exact ⟨p, hp, mem_stream_section p.2 p.1 (scripts p.1) e hel⟩

/-- Section indices of a full pass are bounded by 7. -/
theorem stream_all_sections_index_lt (scripts : Nat → List AttemptScript)
    (e : StreamEvent) (h : e ∈ stream_all_sections scripts) :
    e.section_index < 7 := by
  obtain ⟨p, hp, _, hidx⟩ := mem_stream_all_sections scripts e h
  have h7 : p.1 < 7 := by
    have henum : STREAMING_SECTION_NAMES.enum =
        [(0, "summary"), (1, "experiences"), (2, "educations"),
         (3, "skills"), (4, "certifications"), (5, "languages"),
         (6, "projects")] := rfl
    rw [henum] at hp
    fin_cases hp <;> decide
  omega

/-- Section indices of a full pass are emitted in non-decreasing
order. -/
theorem stream_all_sections_sorted (scripts : Nat → List AttemptScript) :
    ((stream_all_sections scripts).map
      (fun e => e.section_index)).Sorted (· ≤ ·) := by
  have hpw : (stream_all_sections scripts).Pairwise
      (fun a b => a.section_index ≤ b.section_index) := by
    rw [stream_all_sections, List.pairwise_flatten]
    constructor
    · intro l hl
      obtain ⟨p, _, rfl⟩ := List.mem_map.mp hl
      exact pairwise_const_le _ p.1
        (fun e he => (mem_stream_section p.2 p.1 (scripts p.1) e he).2)
    · rw [List.pairwise_map]
      have base : (STREAMING_SECTION_NAMES.enum).Pairwise
          (fun p q => p.1 ≤ q.1) := by decide
      refine base.imp ?_
      intro p q hpq x hx y hy
      rw [(mem_stream_section p.2 p.1 (scripts p.1) x hx).2,
        (mem_stream_section q.2 q.1 (scripts q.1) y hy).2]
      exact hpq
  exact List.pairwise_map.mpr hpw

/-- Every section index `k < 7` occurs in a full pass (the section's
`section_start` event carries it). -/
theorem stream_all_sections_coverage (scripts : Nat → List AttemptScript)
    (k : Nat) (hk : k < 7) :
    k ∈ (stream_all_sections scripts).map (fun e => e.section_index) := by
  have hmem : ∀ p : Nat × String, p ∈ STREAMING_SECTION_NAMES.enum →
      ({ event_type := .section_start, sectionName := p.2,
         section_index := p.1 } : StreamEvent) ∈
        stream_all_sections scripts := by
    intro p hp
    rw [stream_all_sections]
    exact List.mem_flatten.mpr
      ⟨stream_section_enhancement p.2 p.1 (scripts p.1),
       List.mem_map.mpr ⟨p, hp, rfl⟩,
       start_mem_stream_section p.2 p.1 (scripts p.1)⟩
  interval_cases k
  · exact List.mem_map.mpr ⟨_, hmem (0, "summary") (by decide), rfl⟩
  · exact List.mem_map.mpr ⟨_, hmem (1, "experiences") (by decide), rfl⟩
  · exact List.mem_map.mpr ⟨_, hmem (2, "educations") (by decide), rfl⟩
  · exact List.mem_map.mpr ⟨_, hmem (3, "skills") (by decide), rfl⟩
  · exact List.mem_map.mpr ⟨_, hmem (4, "certifications") (by decide), rfl⟩
  · exact List.mem_map.mpr ⟨_, hmem (5, "languages") (by decide), rfl⟩
  · exact List.mem_map.mpr ⟨_, hmem (6, "projects") (by decide), rfl⟩

/-- Invariant of the chunk loop: starting from a state whose
accumulated text extends the last emitted text `p` and whose
`last_sent_length` is `p.length`, the accumulated texts of all later
delta emissions form a strictly extending chain above `p`. -/
theorem chain_runChunks (n : String) (i : Nat) (cs : List StreamChunk) :
    ∀ (s : DeltaState) (p : String),
      (∃ u, s.accumulated = p ++ u) → s.lastSentLength = p.length →
      List.Chain' StrictExtend
        (p :: accumTexts (runChunks n i s cs).2) := by
  induction cs with
  | nil =>
      intro s p _ _
      simp [runChunks, accumTexts]
  | cons c cs ih =>
      intro s p h1 h2
      obtain ⟨u, hu⟩ := h1
      rw [runChunks]
      by_cases hc : DELTA_INTERVAL_MS ≤ c.now - s.lastDeltaTime ∧
          MIN_CHUNK_SIZE ≤ (s.accumulated ++ c.text).length - s.lastSentLength
      · simp only [processChunk, if_pos hc, accumTexts, List.cons_append,
          List.nil_append, List.filterMap_cons]
        rw [List.chain'_cons]
        constructor
        · refine ⟨?_, u ++ c.text, by rw [hu, String.append_assoc]⟩
          have hlen : (s.accumulated ++ c.text).length =
              p.length + (u ++ c.text).length := by
            rw [hu, String.append_assoc, String.length_append]
          have hch := hc.2
          rw [h2] at hch
          have hmin : (10 : Nat) ≤ MIN_CHUNK_SIZE := by decide
          omega
        · exact ih _ (s.accumulated ++ c.text) ⟨"", by simp⟩ rfl
      · simp only [processChunk, if_neg hc, List.nil_append]
        exact ih _ p ⟨u ++ c.text, by rw [hu, String.append_assoc]⟩ h2

/-- Within one streaming attempt, the accumulated texts of the emitted
delta events strictly extend each other. -/
theorem attempt_accum_strict_chain (n : String) (i : Nat)
    (a : AttemptScript) :
    List.Chain' StrictExtend
      (accumTexts (runChunks n i (attemptInitState a) a.chunks).2) :=
  (chain_runChunks n i a.chunks (attemptInitState a) ""
    ⟨"", rfl⟩ rfl).tail

/-- C5, amended: for every full streaming pass, (1) the subsequence of
events of each section is exactly `section_start`, then zero or more
`section_delta`, then exactly one of `section_complete` or `error`;
(2) section indices appear in non-decreasing, contiguous order `0..6`;
(3) within each retry attempt of a section, the `section_delta` events
carry strictly increasing accumulated text (each accumulated text
strictly extends the previous one).  The accumulator resets when an
attempt is retried, so the strict increase holds per attempt, not
across the whole section. -/
theorem streaming_event_ordering (scripts : Nat → List AttemptScript) :
    (∀ (i : Nat) (name : String),
      STREAMING_SECTION_NAMES[i]? = some name →
      ∃ d t, sectionEvents name (stream_all_sections scripts) =
          { event_type := .section_start, sectionName := name,
            section_index := i } :: (d ++ [t]) ∧
        (∀ e ∈ d, e.event_type = .section_delta) ∧
        (t.event_type = .section_complete ∨
          t.event_type = .error_event)) ∧
    ((stream_all_sections scripts).map
      (fun e => e.section_index)).Sorted (· ≤ ·) ∧
    (∀ e ∈ stream_all_sections scripts, e.section_index < 7) ∧
    (∀ k, k < 7 →
      k ∈ (stream_all_sections scripts).map (fun e => e.section_index)) ∧
    (∀ (n : String) (i : Nat) (a : AttemptScript),
      List.Chain' StrictExtend
        (accumTexts (runChunks n i (attemptInitState a) a.chunks).2)) := by
  refine ⟨?_, stream_all_sections_sorted scripts,
    stream_all_sections_index_lt scripts,
    stream_all_sections_coverage scripts,
    fun n i a => attempt_accum_strict_chain n i a⟩
  intro i name h
  have hi : i < 7 := by
    by_contra hge
    push_neg at hge
    rw [List.getElem?_eq_none (by simpa [STREAMING_SECTION_NAMES]
      using hge)] at h
    cases h
  have hunf : stream_all_sections scripts =
      stream_section_enhancement "summary" 0 (scripts 0) ++
      (stream_section_enhancement "experiences" 1 (scripts 1) ++
      (stream_section_enhancement "educations" 2 (scripts 2) ++
      (stream_section_enhancement "skills" 3 (scripts 3) ++
      (stream_section_enhancement "certifications" 4 (scripts 4) ++
      (stream_section_enhancement "languages" 5 (scripts 5) ++
      (stream_section_enhancement "projects" 6 (scripts 6) ++ [])))))) :=
    rfl
  interval_cases i
  · simp only [STREAMING_SECTION_NAMES, List.getElem?_cons_zero,
      Option.some.injEq] at h
    subst h
    have hfilter : sectionEvents "summary" (stream_all_sections scripts) =
        stream_section_enhancement "summary" 0 (scripts 0) := by
      rw [hunf]
      simp [sectionEvents, List.filter_append, filter_stream_section_self,
        filter_stream_section_ne]
    obtain ⟨d, t, hsh, hd, ht, _, _⟩ :=
      stream_section_shape "summary" 0 (scripts 0)
    exact ⟨d, t, hfilter.trans hsh, fun e he => (hd e he).1, ht⟩
  · simp only [STREAMING_SECTION_NAMES, List.getElem?_cons_zero,
      List.getElem?_cons_succ,
      Option.some.injEq] at h
    subst h
    have hfilter : sectionEvents "experiences" (stream_all_sections scripts) =
        stream_section_enhancement "experiences" 1 (scripts 1) := by
      rw [hunf]
      simp [sectionEvents, List.filter_append, filter_stream_section_self,
        filter_stream_section_ne]
    obtain ⟨d, t, hsh, hd, ht, _, _⟩ :=
      stream_section_shape "experiences" 1 (scripts 1)
    exact ⟨d, t, hfilter.trans hsh, fun e he => (hd e he).1, ht⟩
  · simp only [STREAMING_SECTION_NAMES, List.getElem?_cons_zero,
      List.getElem?_cons_succ,
      Option.some.injEq] at h
    subst h
    have hfilter : sectionEvents "educations" (stream_all_sections scripts) =
        stream_section_enhancement "educations" 2 (scripts 2) := by
      rw [hunf]
      simp [sectionEvents, List.filter_append, filter_stream_section_self,
        filter_stream_section_ne]
    obtain ⟨d, t, hsh, hd, ht, _, _⟩ :=
      stream_section_shape "educations" 2 (scripts 2)
    exact ⟨d, t, hfilter.trans hsh, fun e he => (hd e he).1, ht⟩
  · simp only [STREAMING_SECTION_NAMES, List.getElem?_cons_zero,
      List.getElem?_cons_succ,
      Option.some.injEq] at h
    subst h
    have hfilter : sectionEvents "skills" (stream_all_sections scripts) =
        stream_section_enhancement "skills" 3 (scripts 3) := by
      rw [hunf]
      simp [sectionEvents, List.filter_append, filter_stream_section_self,
        filter_stream_section_ne]
    obtain ⟨d, t, hsh, hd, ht, _, _⟩ :=
      stream_section_shape "skills" 3 (scripts 3)
    exact ⟨d, t, hfilter.trans hsh, fun e he => (hd e he).1, ht⟩
  · simp only [STREAMING_SECTION_NAMES, List.getElem?_cons_zero,
      List.getElem?_cons_succ,
      Option.some.injEq] at h
    subst h
    have hfilter : sectionEvents "certifications" (stream_all_sections scripts) =
        stream_section_enhancement "certifications" 4 (scripts 4) := by
      rw [hunf]
      simp [sectionEvents, List.filter_append, filter_stream_section_self,
        filter_stream_section_ne]
    obtain ⟨d, t, hsh, hd, ht, _, _⟩ :=
      stream_section_shape "certifications" 4 (scripts 4)
    exact ⟨d, t, hfilter.trans hsh, fun e he => (hd e he).1, ht⟩
  · simp only [STREAMING_SECTION_NAMES, List.getElem?_cons_zero,
      List.getElem?_cons_succ,
      Option.some.injEq] at h
    subst h
    have hfilter : sectionEvents "languages" (stream_all_sections scripts) =
        stream_section_enhancement "languages" 5 (scripts 5) := by
      rw [hunf]
      simp [sectionEvents, List.filter_append, filter_stream_section_self,
        filter_stream_section_ne]
    obtain ⟨d, t, hsh, hd, ht, _, _⟩ :=
      stream_section_shape "languages" 5 (scripts 5)
    exact ⟨d, t, hfilter.trans hsh, fun e he => (hd e he).1, ht⟩
  · simp only [STREAMING_SECTION_NAMES, List.getElem?_cons_zero,
      List.getElem?_cons_succ,
      Option.some.injEq] at h
    subst h
    have hfilter : sectionEvents "projects" (stream_all_sections scripts) =
        stream_section_enhancement "projects" 6 (scripts 6) := by
      rw [hunf]
      simp [sectionEvents, List.filter_append, filter_stream_section_self,
        filter_stream_section_ne]
    obtain ⟨d, t, hsh, hd, ht, _, _⟩ :=
      stream_section_shape "projects" 6 (scripts 6)
    exact ⟨d, t, hfilter.trans hsh, fun e he => (hd e he).1, ht⟩

/-- A trivial streaming script: every section parses on the first
attempt with no streamed chunks. -/
def scripts0 : Nat → List AttemptScript :=
  fun _ => [{ startTime := 0, chunks := [], ending := .parsed "payload" }]

/-- C5 witness: the ordering theorem applied to the concrete pass
`scripts0`, at section "summary" and index 0. -/
theorem streaming_event_ordering_witness :
    (∃ d t, sectionEvents "summary" (stream_all_sections scripts0) =
        { event_type := .section_start, sectionName := "summary",
          section_index := 0 } :: (d ++ [t]) ∧
      (∀ e ∈ d, e.event_type = .section_delta) ∧
      (t.event_type = .section_complete ∨
        t.event_type = .error_event)) ∧
    (0 : Nat) ∈ (stream_all_sections scripts0).map
      (fun e => e.section_index) :=
  ⟨(streaming_event_ordering scripts0).1 0 "summary" (by decide),
   (streaming_event_ordering scripts0).2.2.2.1 0 (by decide)⟩

/-- First scripted attempt of the counterexample: stream ten
characters (emitting one delta), then fail to parse. -/
def cexAttempt1 : AttemptScript :=
  { startTime := 0, chunks := [{ text := "0123456789", now := 1000 }],
    ending := .parseFail }

/-- Retry attempt of the counterexample: the accumulator restarts from
the empty string, streams ten different characters (emitting one
delta), and parses. -/
def cexAttempt2 : AttemptScript :=
  { startTime := 2000, chunks := [{ text := "ABCDEFGHIJ", now := 4000 }],
    ending := .parsed "payload" }

/-- Counterexample scripts: the summary section retries, every other
section succeeds immediately. -/
def cexScripts : Nat → List AttemptScript
  | 0 => [cexAttempt1, cexAttempt2]
  | _ => [{ startTime := 0, chunks := [], ending := .parsed "payload" }]

/-- C5, counterexample to the claim as stated: in the concrete pass
`cexScripts` the summary section emits a delta with accumulated text
"0123456789" in its first attempt, the attempt fails to parse, and
the retry emits a delta with accumulated text "ABCDEFGHIJ" — the
accumulator reset on retry, so the section's delta events do not carry
strictly increasing accumulated text. -/
theorem streaming_accumulated_reset_cex :
    accumTexts (sectionEvents "summary" (stream_all_sections cexScripts)) =
      ["0123456789", "ABCDEFGHIJ"] ∧
    ¬ List.Chain' StrictExtend ["0123456789", "ABCDEFGHIJ"] := by
  constructor
  · rfl
  · intro hch
    have h := (List.chain'_cons.mp hch).1
    have h1 : ("0123456789" : String).length = 10 := by decide
    have h2 : ("ABCDEFGHIJ" : String).length = 10 := by decide
    have h3 := h.1
    rw [h1, h2] at h3
    omega

end ResumeApp
